import Mathlib

/-!
Verification development for the korosho farmer-payment portal
(`app.py`).  The definitions below are a shallow embedding of the core
batch-lifecycle, verification/settlement simulators, two-factor
authorization protocol and invoice/commission ledger of the source.
Randomness (`random.random() < p`, `random.choice(pool)`) is embedded by
passing oracle functions `Nat → Bool` / `Nat → Nat` giving, for each row
index, the outcome of the Bernoulli trial and the index chosen from the
reason pool; properties are quantified over all oracles.  Monetary
amounts (Python floats) are embedded as rationals.
-/

namespace Korosho

/-- `verification_status` values of a `farmer_payments` row. -/
inductive VStatus where
  | unverified
  | verified
  | failed
deriving DecidableEq, Repr

/-- settlement `status` values of a `farmer_payments` row
(`pending`/`paid`/`failed`). -/
inductive SStatus where
  | pending
  | paid
  | failed
deriving DecidableEq, Repr

/-- `status` values of a `submission_batches` row. -/
inductive BStatus where
  | coop_submitted
  | pending_admin_approval
  | verified
  | processed
deriving DecidableEq, Repr

/-- Position of a batch status in the forward lifecycle order
`coop_submitted → pending_admin_approval → verified → processed`. -/
def BStatus.rank : BStatus → Nat
  | .coop_submitted => 0
  | .pending_admin_approval => 1
  | .verified => 2
  | .processed => 3

/-- A `farmer_payments` row: the data columns plus the mutable
verification and settlement fields. -/
structure PaymentRow where
  farmer_name : String
  bank_name : String
  account_number : String
  amount : ℚ
  verification_status : VStatus
  verification_reason : Option String
  settlement_status : SStatus
  failure_reason : Option String
deriving DecidableEq, Repr

/-- Reason pool of `simulate_bank_verification` (uploader pass). -/
def verificationReasons : List String :=
  ["Account Closed", "Name Mismatch", "Invalid Bank Code", "System Check Failed"]

/-- Reason pool of the admin recheck pass in `handle_payment_processing`. -/
def recheckReasons : List String :=
  ["Account Closed", "Name Mismatch", "Invalid Bank Code"]

/-- Reason pool of the settlement pass in `handle_payment_processing`. -/
def settlementReasons : List String :=
  ["Bank Communication Timeout", "Daily Limit Reached", "System Error"]

/-- `random.choice(pool)` given the oracle's chosen index `k`; reduced
modulo the pool size so that every oracle value selects a pool element. -/
def chooseFrom (pool : List String) (k : Nat) : String :=
  pool.getD (k % pool.length) ""

/-- Python f-string rendering of a value that may be `None`
(`f"... {v_reason}"`). -/
def pyOptStr : Option String → String
  | some s => s
  | none => "None"

/-- Python truthiness choice `x if x else d` on an optional string:
`None` and the empty string are falsy. -/
def pyOrElse (s : Option String) (d : String) : String :=
  match s with
  | some t => if t = "" then d else t
  | none => d

/-- One row of `simulate_bank_verification`: the row is marked
`verified` with no reason, then with probability 0.15 (oracle outcome
`fail`) flipped to `failed` with a random reason from the pool. -/
def verifyRow (fail : Bool) (choice : Nat) (r : PaymentRow) : PaymentRow :=
  if fail then
    { r with verification_status := .failed,
             verification_reason := some (chooseFrom verificationReasons choice) }
  else
    { r with verification_status := .verified, verification_reason := none }

/-- One row of the admin recheck pass (`handle_payment_processing`,
finalize branch, `batch_status == 'pending_admin_approval'`):
a `verified` row flips to `failed` with probability 0.20; a `failed` row
stays `failed` keeping its reason when truthy, else the fixed marker;
any other row is set `verified` with the reason cleared. -/
def recheckRow (flip : Bool) (choice : Nat) (r : PaymentRow) : PaymentRow :=
  if r.verification_status = .verified ∧ flip then
    { r with verification_status := .failed,
             verification_reason := some (chooseFrom recheckReasons choice) }
  else if r.verification_status = .failed then
    { r with verification_status := .failed,
             verification_reason :=
               some (pyOrElse r.verification_reason "Pre-verified Failed (Uncorrected)") }
  else
    { r with verification_status := .verified, verification_reason := none }

/-- One row of the settlement pass (`handle_payment_processing`,
finalize branch): a row failed at verification fails settlement
deterministically with reason `"Verification Failed: <reason>"`;
otherwise it is `paid` with probability 0.95, else `failed` with a
random settlement reason. -/
def settleRow (pay : Bool) (choice : Nat) (r : PaymentRow) : PaymentRow :=
  if r.verification_status = .failed then
    { r with settlement_status := .failed,
             failure_reason :=
               some ("Verification Failed: " ++ pyOptStr r.verification_reason) }
  else if pay then
    { r with settlement_status := .paid, failure_reason := none }
  else
    { r with settlement_status := .failed,
             failure_reason := some (chooseFrom settlementReasons choice) }

/-- Apply a per-index row transformer down a list, threading the row
index (the per-row loops of the simulators). -/
def applyFrom (f : Nat → PaymentRow → PaymentRow) : Nat → List PaymentRow → List PaymentRow
  | _, [] => []
  | i, r :: rs => f i r :: applyFrom f (i + 1) rs

/-- `simulate_bank_verification` over the full row set (the uploader
pass); the required-column check of the source is represented by the
typed `PaymentRow` structure, which always carries the four columns. -/
def simulate_bank_verification (fail : Nat → Bool) (choice : Nat → Nat)
    (rows : List PaymentRow) : List PaymentRow :=
  applyFrom (fun i r => verifyRow (fail i) (choice i) r) 0 rows

/-- The admin recheck pass over the full row set of a batch. -/
def recheckRows (flip : Nat → Bool) (choice : Nat → Nat)
    (rows : List PaymentRow) : List PaymentRow :=
  applyFrom (fun i r => recheckRow (flip i) (choice i) r) 0 rows

/-- The settlement pass over the full row set of a batch. -/
def settleRows (pay : Nat → Bool) (choice : Nat → Nat)
    (rows : List PaymentRow) : List PaymentRow :=
  applyFrom (fun i r => settleRow (pay i) (choice i) r) 0 rows

lemma applyFrom_get? (f : Nat → PaymentRow → PaymentRow) :
    ∀ (l : List PaymentRow) (i j : Nat),
      (applyFrom f i l).get? j = (l.get? j).map (f (i + j)) := by
  intro l
  induction l with
  | nil => intro i j; simp [applyFrom]
  | cons r rs ih =>
      intro i j
      cases j with
      | zero => simp [applyFrom]
      | succ j' =>
          simp only [applyFrom, List.get?]
          rw [ih (i + 1) j']
          have h : i + 1 + j' = i + (j' + 1) := by omega
          rw [h]

lemma chooseFrom_mem (pool : List String) (k : Nat) (hp : pool ≠ []) :
    chooseFrom pool k ∈ pool := by
  have hlen : 0 < pool.length := List.length_pos.mpr hp
  have hk : k % pool.length < pool.length := Nat.mod_lt _ hlen
  unfold chooseFrom
  rw [List.getD_eq_getElem _ _ hk]
  exact List.getElem_mem hk

/-- `COST_PER_ROW_USD = 1.50` (app.py, constants). -/
def COST_PER_ROW_USD : ℚ := 1.50

/-- `EXCHANGE_RATE_TSH_TO_USD = 2500` (app.py, constants). -/
def EXCHANGE_RATE_TSH_TO_USD : ℚ := 2500

/-- `PAYMENT_COMMISSION_RATE = 0.025` (app.py, constants). -/
def PAYMENT_COMMISSION_RATE : ℚ := 0.025

/-- A row of the `invoices` table. -/
structure Invoice where
  batch_id : Nat
  cooperative_name : String
  row_count : Nat
  amount_usd : ℚ
  status : String
  invoice_reference : String
  payment_commission_usd : Option ℚ
  payment_commission_reference : Option String
deriving DecidableEq, Repr

/-- `cooperative_name.split()[0].upper()`: the first whitespace-delimited
token of the cooperative name, upper-cased (empty result where Python
would raise on a blank name). -/
def coopShort (name : String) : String :=
  (((name.split Char.isWhitespace).filter (fun t => t ≠ "")).headD "").toUpper

/-- Python `f"{n:04d}"` for a natural number: decimal digits
left-padded with zeros to width 4. -/
def pad4 (n : Nat) : String :=
  let s := toString n
  String.mk (List.replicate (4 - s.length) '0') ++ s

/-- `SELECT COUNT(*) FROM invoices WHERE cooperative_name = ?`. -/
def countInvoicesFor (db : List Invoice) (coop : String) : Nat :=
  (db.filter (fun inv => inv.cooperative_name == coop)).length

/-- `create_invoice`: computes the amount from the row count, builds the
reference from the cooperative short name, the 1-based count of the
cooperative's invoices and the year, and inserts the `unpaid` invoice.
Returns the new table together with `(amount_usd, invoice_ref)`. -/
def create_invoice (db : List Invoice) (batch_id : Nat) (cooperative_name : String)
    (row_count : Nat) (year : Nat) : List Invoice × ℚ × String :=
  let amount_usd : ℚ := (row_count : ℚ) * COST_PER_ROW_USD
  let next_id := countInvoicesFor db cooperative_name + 1
  let invoice_ref := coopShort cooperative_name ++ "-" ++ pad4 next_id ++ "-" ++ toString year
  (db ++ [{ batch_id := batch_id, cooperative_name := cooperative_name,
            row_count := row_count, amount_usd := amount_usd, status := "unpaid",
            invoice_reference := invoice_ref, payment_commission_usd := none,
            payment_commission_reference := none }],
   amount_usd, invoice_ref)

/-- `create_payment_commission`: computes the commission from the batch
total and writes it (with its reference) onto the invoice rows of the
batch.  Returns the updated table with `(commission_usd, ref_num)`. -/
def create_payment_commission (db : List Invoice) (batch_id : Nat)
    (cooperative_name : String) (total_amount_tsh : ℚ) : List Invoice × ℚ × String :=
  let commission_tsh := total_amount_tsh * PAYMENT_COMMISSION_RATE
  let commission_usd := commission_tsh / EXCHANGE_RATE_TSH_TO_USD
  let ref_num := "CP-PAY-" ++ coopShort cooperative_name ++ "-" ++ toString batch_id
  (db.map (fun inv =>
      if inv.batch_id == batch_id then
        { inv with payment_commission_usd := some commission_usd,
                   payment_commission_reference := some ref_num }
      else inv),
   commission_usd, ref_num)

/-- Arguments of one `create_invoice` call. -/
structure InvoiceReq where
  batch_id : Nat
  coop : String
  row_count : Nat
  year : Nat

/-- Run a sequence of `create_invoice` calls against the invoice table. -/
def runCreates : List Invoice → List InvoiceReq → List Invoice
  | db, [] => db
  | db, q :: qs => runCreates (create_invoice db q.batch_id q.coop q.row_count q.year).1 qs

/-- The sequence numbers (`next_id`) that a run of `create_invoice`
calls assigns to invoices of cooperative `c`, in creation order. -/
def assignedSeqs : List Invoice → List InvoiceReq → String → List Nat
  | _, [], _ => []
  | db, q :: qs, c =>
      (if q.coop = c then [countInvoicesFor db c + 1] else []) ++
        assignedSeqs (create_invoice db q.batch_id q.coop q.row_count q.year).1 qs c

lemma countInvoicesFor_create (db : List Invoice) (b : Nat) (co : String)
    (n y : Nat) (c : String) :
    countInvoicesFor (create_invoice db b co n y).1 c =
      countInvoicesFor db c + (if co = c then 1 else 0) := by
  unfold countInvoicesFor create_invoice
  rw [List.filter_append, List.length_append]
  by_cases h : co = c <;> simp [h]

lemma assignedSeqs_bound_pairwise :
    ∀ (qs : List InvoiceReq) (db : List Invoice) (c : String),
      (∀ x ∈ assignedSeqs db qs c, countInvoicesFor db c < x) ∧
        (assignedSeqs db qs c).Pairwise (· < ·) := by
  intro qs
  induction qs with
  | nil => intro db c; simp [assignedSeqs]
  | cons q qs ih =>
      intro db c
      have hcount := countInvoicesFor_create db q.batch_id q.coop q.row_count q.year c
      obtain ⟨ihb, ihp⟩ := ih (create_invoice db q.batch_id q.coop q.row_count q.year).1 c
      by_cases h : q.coop = c
      · subst h
        rw [hcount, if_pos rfl] at ihb
        have hseq : assignedSeqs db (q :: qs) q.coop
            = (countInvoicesFor db q.coop + 1) ::
              assignedSeqs (create_invoice db q.batch_id q.coop q.row_count q.year).1 qs q.coop := by
          simp [assignedSeqs]
        constructor
        · intro x hx
          rw [hseq] at hx
          rcases List.mem_cons.mp hx with hx | hx
          · omega
          · have := ihb x hx
            omega
        · rw [hseq]
          refine List.Pairwise.cons ?_ ihp
          intro x hx
          have := ihb x hx
          omega
      · constructor
        · intro x hx
          simp only [assignedSeqs, h, if_neg, not_false_iff, List.nil_append] at hx
          have := ihb x hx
          rw [hcount, if_neg h] at this
          omega
        · simpa only [assignedSeqs, h, if_neg, not_false_iff, List.nil_append] using ihp

/-- A row of the `submission_batches` table. -/
structure Batch where
  id : Nat
  cooperative_id : Nat
  filename : String
  record_count : Nat
  total_amount : ℚ
  status : BStatus
  cooperative_notes : String
deriving DecidableEq, Repr

/-- The persisted tables touched by the submission step: batches, the
farmer-payment rows keyed by batch id, and the invoices. -/
structure CoreDB where
  batches : List Batch
  payments : List (Nat × PaymentRow)
  invoices : List Invoice
deriving DecidableEq, Repr

/-- Outcome surfaced by the submission step. -/
inductive SubmitResult where
  | accepted (batch_id : Nat) (invoice_ref : String) (amount_usd : ℚ)
  | rejected (msg : String)
deriving DecidableEq, Repr

/-- `submit_to_approver`: rejects a non-uploader caller, rejects when
any row is still `failed`, and otherwise inserts the batch at
`coop_submitted`, appends its rows and opens the invoice.  The empty
table guard (`not table_data`) is a rejection with no message; the new
batch id models the autoincrement key. -/
def submit_to_approver (db : CoreDB) (role : String) (cooperative_id : Nat)
    (cooperative_name : String) (display_filename : String) (coop_note : String)
    (year : Nat) (rows : List PaymentRow) : CoreDB × SubmitResult :=
  if rows.isEmpty then (db, .rejected "")
  else if role ≠ "coop_uploader" then (db, .rejected "Access Denied.")
  else if rows.any (fun r => r.verification_status == .failed) then
    (db, .rejected
      "Submission Rejected: Please correct all verification failures before submitting.")
  else
    let record_count := rows.length
    let total_amount := (rows.map (fun r => r.amount)).sum
    let batch_id := db.batches.length + 1
    let newBatch : Batch :=
      { id := batch_id, cooperative_id := cooperative_id, filename := display_filename,
        record_count := record_count, total_amount := total_amount,
        status := .coop_submitted, cooperative_notes := coop_note }
    let created := create_invoice db.invoices batch_id cooperative_name record_count year
    ({ batches := db.batches ++ [newBatch],
       payments := db.payments ++ rows.map (fun r => (batch_id, r)),
       invoices := created.1 },
     .accepted batch_id created.2.2 created.2.1)

/-- The status-guarded update of `handle_pin_step`:
`UPDATE submission_batches SET status = 'pending_admin_approval'
WHERE id = ? AND status = 'coop_submitted'`. -/
def authAdvanceStatus (st : BStatus) : BStatus :=
  if st = .coop_submitted then .pending_admin_approval else st

/-- The per-batch state visible to the payment pipeline
(`handle_pin_step` / `handle_payment_processing`): the batch status, its
rows, the invoice table, the `payment_history` batch ids, and the
`batch-to-process` store holding the status snapshot taken at
authorization time (`none` when no pipeline run is in flight). -/
structure PipelineState where
  batchStatus : BStatus
  rows : List PaymentRow
  invoices : List Invoice
  history : List Nat
  batchData : Option BStatus
deriving Repr

/-- Operations driving a batch through the pipeline: a successful PIN
authorization, an animation tick (`n_intervals < 4`), and the finalize
step (`n_intervals >= 4`) carrying the randomness oracles of the
recheck and settlement passes. -/
inductive PipeOp where
  | authorize
  | tick
  | finalize (vflip : Nat → Bool) (vpick : Nat → Nat)
             (pay : Nat → Bool) (spick : Nat → Nat)

/-- One pipeline operation on a batch (`bid`, of cooperative `coop`,
with persisted total `total`).  `authorize` performs the guarded status
update and records the re-read status in `batch-to-process`; `tick` is
purely observational; `finalize` aborts when no run is in flight,
otherwise runs the recheck pass (when the snapshot is
`pending_admin_approval`, also marking the batch `verified`), then
unconditionally marks it `processed`, settles all rows, appends the
payment-history entry, writes the commission, and clears
`batch-to-process`. -/
def pipeStep (bid : Nat) (coop : String) (total : ℚ)
    (s : PipelineState) : PipeOp → PipelineState
  | .authorize =>
      let st := authAdvanceStatus s.batchStatus
      { s with batchStatus := st, batchData := some st }
  | .tick => s
  | .finalize vflip vpick pay spick =>
      match s.batchData with
      | none => s
      | some snap =>
          let s1 :=
            if snap = .pending_admin_approval then
              { s with rows := recheckRows vflip vpick s.rows, batchStatus := .verified }
            else s
          { s1 with batchStatus := .processed,
                    rows := settleRows pay spick s1.rows,
                    invoices := (create_payment_commission s1.invoices bid coop total).1,
                    history := s1.history ++ [bid],
                    batchData := none }

/-- Run a sequence of pipeline operations. -/
def runPipe (bid : Nat) (coop : String) (total : ℚ)
    (s : PipelineState) (ops : List PipeOp) : PipelineState :=
  ops.foldl (pipeStep bid coop total) s

lemma runPipe_append (bid : Nat) (coop : String) (total : ℚ)
    (s : PipelineState) (l1 l2 : List PipeOp) :
    runPipe bid coop total s (l1 ++ l2) =
      runPipe bid coop total (runPipe bid coop total s l1) l2 := by
  unfold runPipe
  exact List.foldl_append _ _ _ _

lemma pipeStep_rank_mono (bid : Nat) (coop : String) (total : ℚ)
    (s : PipelineState) (op : PipeOp) :
    s.batchStatus.rank ≤ (pipeStep bid coop total s op).batchStatus.rank := by
  cases op with
  | authorize =>
      simp only [pipeStep, authAdvanceStatus]
      by_cases h : s.batchStatus = .coop_submitted <;> simp [h, BStatus.rank]
  | tick => exact le_refl _
  | finalize vflip vpick pay spick =>
      cases hbd : s.batchData with
      | none => simp [pipeStep, hbd]
      | some snap =>
          have : (pipeStep bid coop total s (.finalize vflip vpick pay spick)).batchStatus
              = .processed := by
            simp only [pipeStep, hbd]
          rw [this]
          cases s.batchStatus <;> simp [BStatus.rank]

/-- Stored credential hashes of the authorizing account (`users.passphrase`
and `users.pin` hold hashes). -/
structure Creds where
  passphrase : String
  pin : String

/-- Which step of the two-step authorization modal is displayed
(`payment-auth-step-store`). -/
inductive AuthStep where
  | stepPassphrase
  | stepPin
deriving DecidableEq, Repr

/-- State of one authorization attempt plus the status of its target
batch: the displayed step, the `payment-authorization-store` target, the
`pin-input-store` digit buffer, whether the attempt has authorized, and
the persisted batch status. -/
structure AuthState where
  authStep : AuthStep
  target : Option Nat
  pinBuf : String
  authorized : Bool
  batchStatus : BStatus
deriving DecidableEq, Repr

/-- Events of the authorization modal: a payment-button click
(`trigger_auth_modal`), cancellation/modal dismissal (`auth-cancel-button`
plus `reset_auth_modal_on_close`), a passphrase submission
(`handle_passphrase_step`), a PIN-pad key press
(`update_pin_from_dialpad`: digits, clear, backspace), and the Authorize
click (`handle_pin_step`). -/
inductive AuthEvent where
  | openFor (b : Nat)
  | cancel
  | passSubmit (text : String)
  | pinPress (key : Char)
  | pinSubmit
deriving DecidableEq, Repr

/-- `update_pin_from_dialpad` buffer update: `C` clears, backspace drops
the last digit, any other key appends while fewer than 6 digits are
held. -/
def dialUpdate (key : Char) (buf : String) : String :=
  if key = 'C' then ""
  else if key = '<' then buf.dropRight 1
  else if buf.length < 6 then buf.push key
  else buf

/-- One transition of the authorization protocol.  `hash` embeds
`hashlib.sha256(...).hexdigest()`; a credential check compares
`hash attempt` with the stored hash.  The passphrase, PIN-pad and
Authorize handlers act only in the modal step in which their controls
are displayed; `openFor` resets to the passphrase step (the previous
session's buffer was cleared by the modal-close reset); a successful
PIN check performs the guarded batch-status update and discards the
session; a failed one clears the digit buffer. -/
def authStepFn (hash : String → String) (cred : Creds)
    (s : AuthState) : AuthEvent → AuthState
  | .openFor b =>
      { s with authStep := .stepPassphrase, target := some b, pinBuf := "" }
  | .cancel =>
      { s with authStep := .stepPassphrase, target := none, pinBuf := "" }
  | .passSubmit text =>
      if s.authStep = .stepPassphrase then
        if hash text = cred.passphrase then { s with authStep := .stepPin } else s
      else s
  | .pinPress key =>
      if s.authStep = .stepPin then { s with pinBuf := dialUpdate key s.pinBuf } else s
  | .pinSubmit =>
      if s.authStep = .stepPin then
        match s.target with
        | none => s
        | some _ =>
            if hash s.pinBuf = cred.pin then
              { s with authorized := true,
                       batchStatus := authAdvanceStatus s.batchStatus,
                       authStep := .stepPassphrase, target := none, pinBuf := "" }
            else { s with pinBuf := "" }
      else s

/-- Run a sequence of authorization events. -/
def runAuth (hash : String → String) (cred : Creds)
    (s : AuthState) (evs : List AuthEvent) : AuthState :=
  evs.foldl (authStepFn hash cred) s

/-- A fresh, idle authorization state over a batch in status `st`. -/
def authInit (st : BStatus) : AuthState :=
  { authStep := .stepPassphrase, target := none, pinBuf := "",
    authorized := false, batchStatus := st }

lemma runAuth_append (hash : String → String) (cred : Creds)
    (s : AuthState) (l1 l2 : List AuthEvent) :
    runAuth hash cred s (l1 ++ l2) = runAuth hash cred (runAuth hash cred s l1) l2 := by
  unfold runAuth
  exact List.foldl_append _ _ _ _

lemma getq_concat_self {α : Type} (l : List α) (a : α) :
    (l ++ [a]).get? l.length = some a := by
  induction l with
  | nil => rfl
  | cons x xs ih =>
      simp only [List.cons_append, List.length_cons]
      exact ih

lemma getq_append_left {α : Type} {l : List α} (l2 : List α) {n : Nat}
    (h : n < l.length) : (l ++ l2).get? n = l.get? n := by
  induction l generalizing n with
  | nil => simp at h
  | cons x xs ih =>
      cases n with
      | zero => rfl
      | succ m =>
          simp only [List.length_cons] at h
          simpa using ih (Nat.lt_of_succ_lt_succ h)

lemma take_append_left {α : Type} {l : List α} (l2 : List α) {n : Nat}
    (h : n ≤ l.length) : (l ++ l2).take n = l.take n := by
  induction l generalizing n with
  | nil =>
      have : n = 0 := Nat.le_zero.mp h
      simp [this]
  | cons x xs ih =>
      cases n with
      | zero => rfl
      | succ m =>
          simp only [List.length_cons] at h
          rw [List.cons_append, List.take_succ_cons, List.take_succ_cons,
            ih (Nat.le_of_succ_le_succ h)]

lemma getq_some_lt {α : Type} {l : List α} {n : Nat} {a : α}
    (h : l.get? n = some a) : n < l.length := by
  by_contra hn
  rw [List.get?_eq_none.mpr (Nat.le_of_not_lt hn)] at h
  exact Option.noConfusion h

lemma runAuth_singleton (hash : String → String) (cred : Creds)
    (s : AuthState) (e : AuthEvent) :
    runAuth hash cred s [e] = authStepFn hash cred s e := rfl

/-- The modal only reaches the PIN step after a passphrase whose hash
matched the stored one was submitted. -/
lemma authStep_pin_has_pass_match (hash : String → String) (cred : Creds) (st : BStatus) :
    ∀ evs : List AuthEvent,
      (runAuth hash cred (authInit st) evs).authStep = .stepPin →
      ∃ i t, evs.get? i = some (.passSubmit t) ∧ hash t = cred.passphrase := by
  intro evs
  induction evs using List.reverseRecOn with
  | nil => intro h; exact absurd h (by simp [runAuth, authInit])
  | append_singleton l e ih =>
      intro h
      rw [runAuth_append, runAuth_singleton] at h
      set s := runAuth hash cred (authInit st) l with hs
      have lift : ∀ i t, l.get? i = some (.passSubmit t) → hash t = cred.passphrase →
          ∃ i' t', (l ++ [e]).get? i' = some (.passSubmit t') ∧ hash t' = cred.passphrase := by
        intro i t hi hm
        exact ⟨i, t, by rw [getq_append_left _ (getq_some_lt hi)]; exact hi, hm⟩
      cases e with
      | openFor b => simp [authStepFn] at h
      | cancel => simp [authStepFn] at h
      | passSubmit text =>
          by_cases hstep : s.authStep = .stepPassphrase
          · by_cases hm : hash text = cred.passphrase
            · exact ⟨l.length, text, by rw [getq_concat_self], hm⟩
            · simp only [authStepFn, if_pos hstep, if_neg hm] at h
              rw [hstep] at h
              exact AuthStep.noConfusion h
          · simp only [authStepFn, if_neg hstep] at h
            obtain ⟨i, t, hi, hm⟩ := ih h
            exact lift i t hi hm
      | pinPress key =>
          have hstep : (authStepFn hash cred s (.pinPress key)).authStep = s.authStep := by
            by_cases hp : s.authStep = .stepPin <;> simp [authStepFn, hp]
          rw [hstep] at h
          obtain ⟨i, t, hi, hm⟩ := ih h
          exact lift i t hi hm
      | pinSubmit =>
          by_cases hp : s.authStep = .stepPin
          · cases htg : s.target with
            | none =>
                obtain ⟨i, t, hi, hm⟩ := ih hp
                exact lift i t hi hm
            | some b =>
                by_cases hm : hash s.pinBuf = cred.pin
                · simp [authStepFn, if_pos hp, htg, if_pos hm] at h
                · obtain ⟨i, t, hi, hmm⟩ := ih hp
                  exact lift i t hi hmm
          · simp only [authStepFn, if_neg hp] at h
            exact absurd h hp

/-- A sample row that failed bank verification with reason
`"Account Closed"`. -/
def sampleFailedRow : PaymentRow :=
  { farmer_name := "Juma Hassan", bank_name := "NBC", account_number := "0152",
    amount := 250000, verification_status := .failed,
    verification_reason := some "Account Closed",
    settlement_status := .pending, failure_reason := none }

/-- A sample row that passed bank verification. -/
def sampleVerifiedRow : PaymentRow :=
  { farmer_name := "Asha Mringo", bank_name := "CRDB", account_number := "7731",
    amount := 180000, verification_status := .verified, verification_reason := none,
    settlement_status := .pending, failure_reason := none }

/-- A sample row not yet verified. -/
def sampleUnverifiedRow : PaymentRow :=
  { farmer_name := "Neema Paul", bank_name := "NMB", account_number := "4420",
    amount := 90000, verification_status := .unverified, verification_reason := none,
    settlement_status := .pending, failure_reason := none }

/-- Claim C2: a row whose verification status is `failed` at settlement
time is never marked `paid`: the settlement pass deterministically sets
its settlement status to `failed`, with failure reason exactly the
string `"Verification Failed: "` followed by the row's verification
reason. -/
theorem claim_C2_settle_never_pays_failed_verification
    (pay : Nat → Bool) (spick : Nat → Nat) (rows : List PaymentRow)
    (j : Nat) (r : PaymentRow)
    (hrow : rows.get? j = some r)
    (hfail : r.verification_status = .failed) :
    ∃ r', (settleRows pay spick rows).get? j = some r' ∧
      r'.settlement_status = .failed ∧ r'.settlement_status ≠ .paid ∧
      ∀ reason, r.verification_reason = some reason →
        r'.failure_reason = some ("Verification Failed: " ++ reason) := by
  refine ⟨settleRow (pay j) (spick j) r, ?_, ?_, ?_, ?_⟩
  · unfold settleRows
    rw [applyFrom_get? _ rows 0 j, hrow]
    simp
  · simp [settleRow, hfail]
  · simp [settleRow, hfail]
  · intro reason hr
    simp [settleRow, hfail, hr, pyOptStr]

/-- Witness for C2 at a concrete failed row with reason
`"Account Closed"`. -/
theorem claim_C2_witness :
    ∃ r', (settleRows (fun _ => true) (fun _ => 0) [sampleFailedRow]).get? 0 = some r' ∧
      r'.settlement_status = .failed ∧ r'.settlement_status ≠ .paid ∧
      ∀ reason, sampleFailedRow.verification_reason = some reason →
        r'.failure_reason = some ("Verification Failed: " ++ reason) :=
  claim_C2_settle_never_pays_failed_verification (fun _ => true) (fun _ => 0)
    [sampleFailedRow] 0 sampleFailedRow rfl rfl

/-- Claim C5: finalizing a submission in which any row is still
`failed` is rejected: the database is untouched (no batch, no rows, no
invoice) and the operation surfaces a rejection. -/
theorem claim_C5_submit_rejected_on_failed_rows
    (db : CoreDB) (role : String) (cid : Nat) (cname fname note : String)
    (year : Nat) (rows : List PaymentRow)
    (h : rows.any (fun r => r.verification_status == .failed) = true) :
    (submit_to_approver db role cid cname fname note year rows).1 = db ∧
    ∃ msg, (submit_to_approver db role cid cname fname note year rows).2 =
      .rejected msg := by
  unfold submit_to_approver
  by_cases he : rows.isEmpty
  · simp [he]
  · by_cases hrole : role = "coop_uploader"
    · simp [he, hrole, h]
    · simp [he, hrole]

/-- Witness for C5 at a concrete row set with one failed row. -/
theorem claim_C5_witness :
    (submit_to_approver ⟨[], [], []⟩ "coop_uploader" 3 "CORECU Ltd" "pay.xlsx" ""
        2026 [sampleVerifiedRow, sampleFailedRow]).1 = ⟨[], [], []⟩ ∧
    ∃ msg, (submit_to_approver ⟨[], [], []⟩ "coop_uploader" 3 "CORECU Ltd" "pay.xlsx" ""
        2026 [sampleVerifiedRow, sampleFailedRow]).2 = .rejected msg :=
  claim_C5_submit_rejected_on_failed_rows ⟨[], [], []⟩ "coop_uploader" 3 "CORECU Ltd"
    "pay.xlsx" "" 2026 [sampleVerifiedRow, sampleFailedRow] rfl

/-- Claim C6: the admin recheck pass leaves a `failed` row `failed`,
keeping its verification reason when a non-blank one is present and
otherwise replacing it with the fixed uncorrected marker; its result on
such a row does not depend on the randomness oracles (no re-roll). -/
theorem claim_C6_recheck_keeps_failed
    (vflip : Nat → Bool) (vpick : Nat → Nat) (rows : List PaymentRow)
    (j : Nat) (r : PaymentRow)
    (hrow : rows.get? j = some r)
    (hfail : r.verification_status = .failed) :
    ∃ r', (recheckRows vflip vpick rows).get? j = some r' ∧
      r'.verification_status = .failed ∧
      (∀ s, r.verification_reason = some s → s ≠ "" →
        r'.verification_reason = some s) ∧
      (r.verification_reason = none →
        r'.verification_reason = some "Pre-verified Failed (Uncorrected)") ∧
      (∀ (vflip' : Nat → Bool) (vpick' : Nat → Nat),
        (recheckRows vflip' vpick' rows).get? j = some r') := by
  have hcell : ∀ (f : Bool) (c : Nat), recheckRow f c r =
      { r with verification_status := .failed,
               verification_reason :=
                 some (pyOrElse r.verification_reason "Pre-verified Failed (Uncorrected)") } := by
    intro f c
    simp [recheckRow, hfail]
  refine ⟨recheckRow (vflip j) (vpick j) r, ?_, ?_, ?_, ?_, ?_⟩
  · unfold recheckRows
    rw [applyFrom_get? _ rows 0 j, hrow]
    simp
  · rw [hcell]
  · intro s hs hne
    rw [hcell, hs]
    simp [pyOrElse, hne]
  · intro hn
    rw [hcell, hn]
    rfl
  · intro vflip' vpick'
    unfold recheckRows
    rw [applyFrom_get? _ rows 0 j, hrow]
    simp only [Option.map_some', Nat.zero_add]
    rw [hcell, hcell]

/-- Witness for C6 at a concrete failed row with reason
`"Account Closed"`, under two different randomness oracles. -/
theorem claim_C6_witness :
    ∃ r', (recheckRows (fun _ => true) (fun _ => 1) [sampleFailedRow]).get? 0 = some r' ∧
      r'.verification_status = .failed ∧
      (∀ s, sampleFailedRow.verification_reason = some s → s ≠ "" →
        r'.verification_reason = some s) ∧
      (sampleFailedRow.verification_reason = none →
        r'.verification_reason = some "Pre-verified Failed (Uncorrected)") ∧
      (∀ (vflip' : Nat → Bool) (vpick' : Nat → Nat),
        (recheckRows vflip' vpick' [sampleFailedRow]).get? 0 = some r') :=
  claim_C6_recheck_keeps_failed (fun _ => true) (fun _ => 1) [sampleFailedRow] 0
    sampleFailedRow rfl rfl

/-- Claim C8: the commission computed at settlement equals
`(total_amount_tsh * 0.025) / 2500`, its reference is
`"CP-PAY-<COOP_SHORT>-<batch_id>"`, it is written onto the batch's
invoice rows, and `1000000` TSH yields `10` USD. -/
theorem claim_C8_commission_formula
    (db : List Invoice) (bid : Nat) (coop : String) (total : ℚ)
    (h : 0 ≤ total) :
    (create_payment_commission db bid coop total).2.1 = total * 0.025 / 2500 ∧
    (create_payment_commission db bid coop total).2.2 =
      "CP-PAY-" ++ coopShort coop ++ "-" ++ toString bid ∧
    (create_payment_commission db bid coop 1000000).2.1 = 10 ∧
    (create_payment_commission db bid coop total).1 =
      db.map (fun inv =>
        if inv.batch_id == bid then
          { inv with payment_commission_usd := some (total * 0.025 / 2500),
                     payment_commission_reference :=
                       some ("CP-PAY-" ++ coopShort coop ++ "-" ++ toString bid) }
        else inv) := by
  refine ⟨rfl, rfl, ?_, rfl⟩
  show (1000000 : ℚ) * PAYMENT_COMMISSION_RATE / EXCHANGE_RATE_TSH_TO_USD = 10
  norm_num [PAYMENT_COMMISSION_RATE, EXCHANGE_RATE_TSH_TO_USD]

/-- Witness for C8 at `total_amount_tsh = 1000000`. -/
theorem claim_C8_witness :
    (create_payment_commission [] 5 "CORECU Ltd" 1000000).2.1 =
      (1000000 : ℚ) * 0.025 / 2500 ∧
    (create_payment_commission [] 5 "CORECU Ltd" 1000000).2.2 =
      "CP-PAY-" ++ coopShort "CORECU Ltd" ++ "-" ++ toString 5 ∧
    (create_payment_commission [] 5 "CORECU Ltd" 1000000).2.1 = 10 ∧
    (create_payment_commission [] 5 "CORECU Ltd" 1000000).1 =
      ([] : List Invoice).map (fun inv =>
        if inv.batch_id == 5 then
          { inv with payment_commission_usd :=
                       some ((1000000 : ℚ) * 0.025 / 2500),
                     payment_commission_reference :=
                       some ("CP-PAY-" ++ coopShort "CORECU Ltd" ++ "-" ++ toString 5) }
        else inv) :=
  claim_C8_commission_formula [] 5 "CORECU Ltd" 1000000 (by norm_num)

/-- Claim C9: the uploader verification pass changes only the
verification fields of each row — farmer identity, bank, account
number, amount (and the settlement fields) are untouched — and sets
each row either `verified` with no reason or `failed` with a reason
from the fixed pool. -/
theorem claim_C9_verify_frame_and_outcomes
    (fail : Nat → Bool) (choice : Nat → Nat) (rows : List PaymentRow)
    (j : Nat) (r : PaymentRow)
    (hrow : rows.get? j = some r) :
    ∃ r', (simulate_bank_verification fail choice rows).get? j = some r' ∧
      r'.farmer_name = r.farmer_name ∧ r'.bank_name = r.bank_name ∧
      r'.account_number = r.account_number ∧ r'.amount = r.amount ∧
      r'.settlement_status = r.settlement_status ∧
      r'.failure_reason = r.failure_reason ∧
      ((r'.verification_status = .verified ∧ r'.verification_reason = none) ∨
       (r'.verification_status = .failed ∧
         ∃ m, m ∈ verificationReasons ∧ r'.verification_reason = some m)) := by
  refine ⟨verifyRow (fail j) (choice j) r, ?_, ?_, ?_, ?_, ?_, ?_, ?_, ?_⟩
  · unfold simulate_bank_verification
    rw [applyFrom_get? _ rows 0 j, hrow]
    simp
  · cases fail j <;> simp [verifyRow]
  · cases fail j <;> simp [verifyRow]
  · cases fail j <;> simp [verifyRow]
  · cases fail j <;> simp [verifyRow]
  · cases fail j <;> simp [verifyRow]
  · cases fail j <;> simp [verifyRow]
  · cases hf : fail j
    · left
      simp [verifyRow, hf]
    · right
      refine ⟨by simp [verifyRow, hf], chooseFrom verificationReasons (choice j), ?_, ?_⟩
      · exact chooseFrom_mem _ _ (by simp [verificationReasons])
      · simp [verifyRow, hf]

/-- Witness for C9 at a concrete row under a failing oracle. -/
theorem claim_C9_witness :
    ∃ r', (simulate_bank_verification (fun _ => true) (fun _ => 2)
        [sampleVerifiedRow]).get? 0 = some r' ∧
      r'.farmer_name = sampleVerifiedRow.farmer_name ∧
      r'.bank_name = sampleVerifiedRow.bank_name ∧
      r'.account_number = sampleVerifiedRow.account_number ∧
      r'.amount = sampleVerifiedRow.amount ∧
      r'.settlement_status = sampleVerifiedRow.settlement_status ∧
      r'.failure_reason = sampleVerifiedRow.failure_reason ∧
      ((r'.verification_status = .verified ∧ r'.verification_reason = none) ∨
       (r'.verification_status = .failed ∧
         ∃ m, m ∈ verificationReasons ∧ r'.verification_reason = some m)) :=
  claim_C9_verify_frame_and_outcomes (fun _ => true) (fun _ => 2)
    [sampleVerifiedRow] 0 sampleVerifiedRow rfl

/-- Claim C10: a row that is neither `verified` nor `failed` when the
admin recheck pass runs is set `verified` with its reason cleared, and
the outcome does not depend on the randomness oracles (no random
roll). -/
theorem claim_C10_recheck_unverified_to_verified
    (vflip : Nat → Bool) (vpick : Nat → Nat) (rows : List PaymentRow)
    (j : Nat) (r : PaymentRow)
    (hrow : rows.get? j = some r)
    (hnv : r.verification_status ≠ .verified)
    (hnf : r.verification_status ≠ .failed) :
    ∃ r', (recheckRows vflip vpick rows).get? j = some r' ∧
      r'.verification_status = .verified ∧ r'.verification_reason = none ∧
      (∀ (vflip' : Nat → Bool) (vpick' : Nat → Nat),
        (recheckRows vflip' vpick' rows).get? j = some r') := by
  have hcell : ∀ (f : Bool) (c : Nat), recheckRow f c r =
      { r with verification_status := .verified, verification_reason := none } := by
    intro f c
    simp [recheckRow, hnv, hnf]
  refine ⟨recheckRow (vflip j) (vpick j) r, ?_, ?_, ?_, ?_⟩
  · unfold recheckRows
    rw [applyFrom_get? _ rows 0 j, hrow]
    simp
  · rw [hcell]
  · rw [hcell]
  · intro vflip' vpick'
    unfold recheckRows
    rw [applyFrom_get? _ rows 0 j, hrow]
    simp only [Option.map_some', Nat.zero_add]
    rw [hcell, hcell]

/-- Witness for C10 at a concrete `unverified` row. -/
theorem claim_C10_witness :
    ∃ r', (recheckRows (fun _ => true) (fun _ => 0) [sampleUnverifiedRow]).get? 0
        = some r' ∧
      r'.verification_status = .verified ∧ r'.verification_reason = none ∧
      (∀ (vflip' : Nat → Bool) (vpick' : Nat → Nat),
        (recheckRows vflip' vpick' [sampleUnverifiedRow]).get? 0 = some r') :=
  claim_C10_recheck_unverified_to_verified (fun _ => true) (fun _ => 0)
    [sampleUnverifiedRow] 0 sampleUnverifiedRow rfl
    (by intro hc; exact VStatus.noConfusion hc)
    (by intro hc; exact VStatus.noConfusion hc)

/-- Claim C7: the invoice created at finalization has
`amount_usd = record_count * 1.50` (100 rows give 150), status
`unpaid`, and reference `"<COOP_SHORT>-<seq:04d>-<year>"` with
`seq` one more than the count of the cooperative's existing invoices;
across any run of invoice creations the sequence numbers assigned to a
cooperative are strictly increasing and unique. -/
theorem claim_C7_invoice_creation :
    (∀ (db : List Invoice) (bid : Nat) (coop : String) (n y : Nat),
      ∃ inv : Invoice,
        (create_invoice db bid coop n y).1 = db ++ [inv] ∧
        inv.amount_usd = (n : ℚ) * 1.50 ∧
        inv.status = "unpaid" ∧
        inv.invoice_reference =
          coopShort coop ++ "-" ++ pad4 (countInvoicesFor db coop + 1) ++ "-" ++
            toString y ∧
        (create_invoice db bid coop n y).2.1 = inv.amount_usd ∧
        (create_invoice db bid coop n y).2.2 = inv.invoice_reference) ∧
    (∀ (db : List Invoice) (bid : Nat) (coop : String) (y : Nat),
      (create_invoice db bid coop 100 y).2.1 = 150) ∧
    (∀ (db : List Invoice) (qs : List InvoiceReq) (c : String),
      (assignedSeqs db qs c).Pairwise (· < ·) ∧ (assignedSeqs db qs c).Nodup) := by
  refine ⟨?_, ?_, ?_⟩
  · intro db bid coop n y
    exact ⟨_, rfl, rfl, rfl, rfl, rfl, rfl⟩
  · intro db bid coop y
    show (100 : ℚ) * COST_PER_ROW_USD = 150
    norm_num [COST_PER_ROW_USD]
  · intro db qs c
    obtain ⟨_, hp⟩ := assignedSeqs_bound_pairwise qs db c
    exact ⟨hp, hp.imp (fun h => Nat.ne_of_lt h)⟩

/-- Claim C3: over any sequence of pipeline operations (authorization
success, tick, finalize), the batch status only moves forward in the
lifecycle order and never regresses: its rank after a longer run is at
least its rank after any initial segment of the run. -/
theorem claim_C3_status_never_regresses
    (bid : Nat) (coop : String) (total : ℚ) (s : PipelineState)
    (ops extra : List PipeOp) :
    (runPipe bid coop total s ops).batchStatus.rank ≤
      (runPipe bid coop total s (ops ++ extra)).batchStatus.rank := by
  rw [runPipe_append]
  generalize runPipe bid coop total s ops = s0
  induction extra generalizing s0 with
  | nil => exact le_refl _
  | cons op rest ih =>
      have hstep : runPipe bid coop total s0 (op :: rest) =
          runPipe bid coop total (pipeStep bid coop total s0 op) rest := rfl
      rw [hstep]
      exact le_trans (pipeStep_rank_mono bid coop total s0 op)
        (ih (pipeStep bid coop total s0 op))

lemma finalize_noop_of_none (bid : Nat) (coop : String) (total : ℚ)
    (s : PipelineState) (vf : Nat → Bool) (vp : Nat → Nat)
    (pb : Nat → Bool) (pc : Nat → Nat) (h : s.batchData = none) :
    pipeStep bid coop total s (.finalize vf vp pb pc) = s := by
  simp [pipeStep, h]

lemma finalize_clears_batchData (bid : Nat) (coop : String) (total : ℚ)
    (s : PipelineState) (vf : Nat → Bool) (vp : Nat → Nat)
    (pb : Nat → Bool) (pc : Nat → Nat) :
    (pipeStep bid coop total s (.finalize vf vp pb pc)).batchData = none := by
  cases hbd : s.batchData with
  | none => rw [finalize_noop_of_none bid coop total s vf vp pb pc hbd]; exact hbd
  | some snap => simp [pipeStep, hbd]

/-- The concrete invoice used in the C1 counterexample scenario. -/
def cexInvoice : Invoice :=
  { batch_id := 5, cooperative_name := "CORECU Ltd", row_count := 1,
    amount_usd := 3 / 2, status := "unpaid", invoice_reference := "CORECU-0001-2026",
    payment_commission_usd := none, payment_commission_reference := none }

/-- The concrete pipeline start state of the C1 counterexample: one
verified row, its open invoice, batch at `coop_submitted`, no pipeline
run in flight. -/
def cexStart : PipelineState :=
  { batchStatus := .coop_submitted, rows := [sampleVerifiedRow],
    invoices := [cexInvoice], history := [], batchData := none }

/-- One authorization followed by one finalize, with oracles that keep
every row verified and pay every row. -/
def cexOps : List PipeOp :=
  [.authorize, .finalize (fun _ => false) (fun _ => 0) (fun _ => true) (fun _ => 0)]

/-- Counterexample to claim C1 as stated: after a full pipeline run the
batch is `processed` with one payment-history entry, yet running the
finalize step a second time on the same batch id (after re-entering the
authorization that the stale payment button still offers) is not
rejected — it mutates the state again, appending a duplicate
payment-history entry. -/
theorem claim_C1_counterexample :
    (runPipe 5 "CORECU Ltd" 250000 cexStart cexOps).batchStatus = .processed ∧
    (runPipe 5 "CORECU Ltd" 250000 cexStart cexOps).history = [5] ∧
    (runPipe 5 "CORECU Ltd" 250000
      (runPipe 5 "CORECU Ltd" 250000 cexStart cexOps) cexOps).history = [5, 5] := by
  refine ⟨rfl, rfl, rfl⟩

/-- Claim C1 (amended): the finalize step clears the in-flight
`batch-to-process` reference, a finalize step with no run in flight
aborts without mutating the batch, its rows, the invoice table or the
payment history, and hence running the finalize step a second time
without a fresh authorization is rejected as a no-op. -/
theorem claim_C1_amended_second_finalize_noop
    (bid : Nat) (coop : String) (total : ℚ) (s : PipelineState)
    (vf vf' : Nat → Bool) (vp vp' : Nat → Nat)
    (pb pb' : Nat → Bool) (pc pc' : Nat → Nat) :
    (pipeStep bid coop total s (.finalize vf vp pb pc)).batchData = none ∧
    pipeStep bid coop total (pipeStep bid coop total s (.finalize vf vp pb pc))
        (.finalize vf' vp' pb' pc') =
      pipeStep bid coop total s (.finalize vf vp pb pc) ∧
    (s.batchData = none → pipeStep bid coop total s (.finalize vf vp pb pc) = s) :=
  ⟨finalize_clears_batchData bid coop total s vf vp pb pc,
   finalize_noop_of_none bid coop total _ vf' vp' pb' pc'
     (finalize_clears_batchData bid coop total s vf vp pb pc),
   finalize_noop_of_none bid coop total s vf vp pb pc⟩

/-- Witness for the amended C1: at the concrete start state with no run
in flight, the finalize step changes nothing. -/
theorem claim_C1_witness :
    pipeStep 5 "CORECU Ltd" 250000 cexStart
        (.finalize (fun _ => false) (fun _ => 0) (fun _ => true) (fun _ => 0)) =
      cexStart :=
  (claim_C1_amended_second_finalize_noop 5 "CORECU Ltd" 250000 cexStart
    (fun _ => false) (fun _ => false) (fun _ => 0) (fun _ => 0)
    (fun _ => true) (fun _ => true) (fun _ => 0) (fun _ => 0)).2.2 rfl

/-- An authorization run only ends authorized if some `pinSubmit` event
was taken from the PIN step with a matching digit-buffer hash, preceded
by a `passSubmit` event whose hash matched the stored passphrase. -/
lemma authorized_two_factor (hash : String → String) (cred : Creds) (st : BStatus) :
    ∀ evs : List AuthEvent,
      (runAuth hash cred (authInit st) evs).authorized = true →
      ∃ j, evs.get? j = some .pinSubmit ∧
        (runAuth hash cred (authInit st) (evs.take j)).authStep = .stepPin ∧
        hash (runAuth hash cred (authInit st) (evs.take j)).pinBuf = cred.pin ∧
        ∃ i t, i < j ∧ evs.get? i = some (.passSubmit t) ∧
          hash t = cred.passphrase := by
  intro evs
  induction evs using List.reverseRecOn with
  | nil => intro h; exact absurd h (by simp [runAuth, authInit])
  | append_singleton l e ih =>
      intro h
      rw [runAuth_append, runAuth_singleton] at h
      set s := runAuth hash cred (authInit st) l with hs
      by_cases hprev : s.authorized = true
      · obtain ⟨j, hj, hstep, hbuf, i, t, hij, hi, hm⟩ := ih hprev
        have hjlt : j < l.length := getq_some_lt hj
        refine ⟨j, ?_, ?_, ?_, i, t, hij, ?_, hm⟩
        · rw [getq_append_left _ hjlt]; exact hj
        · rw [take_append_left _ (Nat.le_of_lt hjlt)]; exact hstep
        · rw [take_append_left _ (Nat.le_of_lt hjlt)]; exact hbuf
        · rw [getq_append_left _ (Nat.lt_trans hij hjlt)]; exact hi
      · have hflip : e = .pinSubmit ∧ s.authStep = .stepPin ∧
            hash s.pinBuf = cred.pin := by
          cases e with
          | openFor b =>
              exact absurd h (by simp [authStepFn]; simpa using hprev)
          | cancel =>
              exact absurd h (by simp [authStepFn]; simpa using hprev)
          | passSubmit text =>
              exfalso
              by_cases hstep : s.authStep = .stepPassphrase
              · by_cases hm : hash text = cred.passphrase
                · rw [authStepFn.eq_def] at h
                  simp only [if_pos hstep, if_pos hm] at h
                  exact hprev h
                · rw [authStepFn.eq_def] at h
                  simp only [if_pos hstep, if_neg hm] at h
                  exact hprev h
              · rw [authStepFn.eq_def] at h
                simp only [if_neg hstep] at h
                exact hprev h
          | pinPress key =>
              exfalso
              by_cases hp : s.authStep = .stepPin
              · rw [authStepFn.eq_def] at h
                simp only [if_pos hp] at h
                exact hprev h
              · rw [authStepFn.eq_def] at h
                simp only [if_neg hp] at h
                exact hprev h
          | pinSubmit =>
              by_cases hp : s.authStep = .stepPin
              · cases htg : s.target with
                | none =>
                    exfalso
                    rw [authStepFn.eq_def] at h
                    simp only [if_pos hp, htg] at h
                    exact hprev h
                | some b =>
                    by_cases hm : hash s.pinBuf = cred.pin
                    · exact ⟨rfl, hp, hm⟩
                    · exfalso
                      rw [authStepFn.eq_def] at h
                      simp only [if_pos hp, htg, if_neg hm] at h
                      exact hprev h
              · exfalso
                rw [authStepFn.eq_def] at h
                simp only [if_neg hp] at h
                exact hprev h
        obtain ⟨he, hp, hm⟩ := hflip
        subst he
        obtain ⟨i, t, hi, hmt⟩ := authStep_pin_has_pass_match hash cred st l hp
        have hilt : i < l.length := getq_some_lt hi
        refine ⟨l.length, ?_, ?_, ?_, i, t, hilt, ?_, hmt⟩
        · rw [getq_concat_self]
        · rw [take_append_left _ (le_refl l.length), List.take_length, ← hs]
          exact hp
        · rw [take_append_left _ (le_refl l.length), List.take_length, ← hs]
          exact hm
        · rw [getq_append_left _ hilt]
          exact hi

/-- Claim C4: an authorization session reaches the authorized outcome
only if a passphrase hash match occurred and a later PIN hash match
occurred within the same session, and cancelling the session at any
point leaves the target batch's status unchanged. -/
theorem claim_C4_two_factor_gate_and_cancel :
    (∀ (hash : String → String) (cred : Creds) (st : BStatus)
        (evs : List AuthEvent),
      (runAuth hash cred (authInit st) evs).authorized = true →
      ∃ j, evs.get? j = some .pinSubmit ∧
        (runAuth hash cred (authInit st) (evs.take j)).authStep = .stepPin ∧
        hash (runAuth hash cred (authInit st) (evs.take j)).pinBuf = cred.pin ∧
        ∃ i t, i < j ∧ evs.get? i = some (.passSubmit t) ∧
          hash t = cred.passphrase) ∧
    (∀ (hash : String → String) (cred : Creds) (s : AuthState),
      (authStepFn hash cred s .cancel).batchStatus = s.batchStatus) :=
  ⟨fun hash cred st evs h => authorized_two_factor hash cred st evs h,
   fun _ _ _ => rfl⟩

/-- The event trace of the C4 witness: open the modal for batch 1,
submit the right passphrase, key in the six PIN digits, authorize. -/
def c4Trace : List AuthEvent :=
  [.openFor 1, .passSubmit "sesame", .pinPress '1', .pinPress '2', .pinPress '3',
   .pinPress '4', .pinPress '5', .pinPress '6', .pinSubmit]

/-- Witness for C4: with the identity embedding of the hash and stored
hashes `"sesame"`/`"123456"`, the concrete trace authorizes, so the
trace contains a matching passphrase submission followed by a matching
PIN submission. -/
theorem claim_C4_witness :
    ∃ j, c4Trace.get? j = some .pinSubmit ∧
      (runAuth (fun t => t) ⟨"sesame", "123456"⟩
        (authInit .coop_submitted) (c4Trace.take j)).authStep = .stepPin ∧
      (fun (t : String) => t)
          ((runAuth (fun t => t) ⟨"sesame", "123456"⟩
            (authInit .coop_submitted) (c4Trace.take j)).pinBuf) = "123456" ∧
      ∃ i t, i < j ∧ c4Trace.get? i = some (.passSubmit t) ∧
        (fun (u : String) => u) t = "sesame" :=
  (claim_C4_two_factor_gate_and_cancel).1 (fun t => t) ⟨"sesame", "123456"⟩
    .coop_submitted c4Trace (by rfl)

end Korosho
